import Mathlib

/-!
Shallow embedding of the alertmanager subsystem of the repository
(`degrade/alertmanager`): the two alert finite-state machines
(`PromAlertFsm`, `DegradeFsm`), the `Alert` wrapper with its
serialization, `Rule` evaluation, `Notification` construction and the
`MemoryStorage` backend.

Modelling conventions:
- `time.Time` instants and `time.Duration` values are modelled as `Int`
  (the Go zero time is `0`; `t.Sub(u)` is `t - u`).
- The FSM entry callbacks in the source stamp timers with `time.Now()`,
  while the decision logic compares against the caller-supplied `ts`.
  The wall clock read by those callbacks is passed explicitly as a `now`
  parameter, so both clocks are visible in the embedding.
- Go state tags are strings in the source (`AlertState string`); they
  stay strings here, so that a corrupted snapshot can put a machine in a
  state from which the fsm library would reject every event (the event
  functions return `Option`, `none` standing for the library error).
- `float64` sample values are only stored and copied by this subsystem
  (never computed with), so they are modelled as `Int`.
- The 64-bit label fingerprint `labels.Hash()` is modelled as the label
  list itself: a deterministic, injective hash (collisions are ignored).
- Writing to a nil Go map panics while reading from it succeeds; the
  `MemoryStorage` map is therefore an `Option`, with `GoPanic` marking
  the panic outcome.
-/

namespace AlertVerify

/-- Decidable equality for `Except` results, so that concrete runs can be
checked by evaluation. -/
instance {ε α : Type _} [DecidableEq ε] [DecidableEq α] :
    DecidableEq (Except ε α) := fun a b =>
  match a, b with
  | .ok x, .ok y =>
    if h : x = y then .isTrue (by rw [h])
    else .isFalse (fun hh => h (Except.ok.inj hh))
  | .error x, .error y =>
    if h : x = y then .isTrue (by rw [h])
    else .isFalse (fun hh => h (Except.error.inj hh))
  | .ok _, .error _ => .isFalse (fun hh => Except.noConfusion hh)
  | .error _, .ok _ => .isFalse (fun hh => Except.noConfusion hh)

/-- Per-rule configuration, from `AlertOpts` in the source. -/
structure AlertOpts where
  holdDuration : Int
  keepFiringFor : Int
  resendDelay : Int
  recoverDuration : Int
  autoRecoverAfter : Int
deriving DecidableEq, Repr

/-- All five durations of an `AlertOpts` are non-negative. -/
def AlertOpts.Nonneg (o : AlertOpts) : Prop :=
  0 ≤ o.holdDuration ∧ 0 ≤ o.keepFiringFor ∧ 0 ≤ o.resendDelay ∧
    0 ≤ o.recoverDuration ∧ 0 ≤ o.autoRecoverAfter

instance (o : AlertOpts) : Decidable o.Nonneg := by
  unfold AlertOpts.Nonneg; infer_instance

/-- The all-zero options value (`&AlertOpts{}` in Go). -/
def zeroOpts : AlertOpts :=
  { holdDuration := 0, keepFiringFor := 0, resendDelay := 0,
    recoverDuration := 0, autoRecoverAfter := 0 }

/-- The Basic FSM state record: `PromAlertFsm` in `fsm_prom.go`
(the embedded looplab machine is represented by its current state tag). -/
structure PromAlertFsm where
  current : String
  activeAt : Int
  firedAt : Int
  lastSentAt : Int
deriving DecidableEq, Repr

/-- The event table registered by `NewPromAlertFsm`: destination of an
event from a source state, `none` when the fsm library would reject it. -/
def promEventDst (current event : String) : Option String :=
  if event = "trigger" then
    if current = "inactive" then some "pending" else none
  else if event = "fire" then
    if current = "pending" ∨ current = "inactive" then some "firing" else none
  else if event = "resolve" then
    if current = "pending" ∨ current = "firing" then some "inactive" else none
  else none

/-- `a.fsm.Event(ctx, e)` for the Basic machine: performs the state change
and runs the `enter_pending` / `enter_firing` / `enter_inactive`
callbacks, which stamp timers with the wall clock `now` (`time.Now()` in
the source). `none` is the fsm library's transition error. -/
def PromAlertFsm.eventCall (a : PromAlertFsm) (e : String) (now : Int) :
    Option PromAlertFsm :=
  match promEventDst a.current e with
  | none => none
  | some dst =>
    let b : PromAlertFsm := { a with current := dst }
    if dst = "pending" then some { b with activeAt := now }
    else if dst = "firing" then some { b with firedAt := now }
    else if dst = "inactive" then
      if a.current = "firing" then some { b with firedAt := 0 } else some b
    else some b

/-- `PromAlertFsm.Transition` from `fsm_prom.go`: returns the updated
machine, the `shouldNotify` flag and the error (`some` marks any fsm
event error; the error text itself is not modelled). -/
def PromAlertFsm.Transition (a : PromAlertFsm) (active : Bool) (ts now : Int)
    (opts : AlertOpts) : PromAlertFsm × Bool × Option String :=
  if active = false ∧ a.current ≠ "inactive" then
    match a.eventCall "resolve" now with
    | none => (a, false, some "event error")
    | some a2 => (a2, true, none)
  else if active = true ∧ a.current = "inactive" then
    if opts.holdDuration = 0 then
      match a.eventCall "fire" now with
      | none => (a, false, some "event error")
      | some a2 => ({ a2 with lastSentAt := ts }, true, none)
    else
      match a.eventCall "trigger" now with
      | none => (a, false, some "event error")
      | some a2 => (a2, false, none)
  else if active = true ∧ a.current = "pending" then
    if ts - a.activeAt < opts.holdDuration then (a, false, none)
    else
      match a.eventCall "fire" now with
      | none => (a, false, some "event error")
      | some a2 => ({ a2 with lastSentAt := ts }, true, none)
  else if active = true ∧ a.current = "firing" then
    if opts.keepFiringFor > 0 ∧ ts - a.firedAt ≥ opts.keepFiringFor then
      match a.eventCall "resolve" now with
      | none => (a, false, some "event error")
      | some a2 => (a2, true, none)
    else if opts.resendDelay > 0 ∧ ts - a.lastSentAt ≥ opts.resendDelay then
      ({ a with lastSentAt := ts }, true, none)
    else (a, false, none)
  else (a, false, none)

/-- `NewPromAlertFsm`: starts `inactive` with zero timers. -/
def NewPromAlertFsm : PromAlertFsm :=
  { current := "inactive", activeAt := 0, firedAt := 0, lastSentAt := 0 }

/-- The Degrade FSM state record, from `fsm_degrade.go`.  `stateEnteredAt`
is a Go `map[AlertState]time.Time`, modelled as an association list
(the Go map read of a missing key yields the zero time). -/
structure DegradeFsm where
  current : String
  stateEnteredAt : List (String × Int)
  lastSentAt : Int
deriving DecidableEq, Repr

/-- Go map read with zero-value default. -/
def mapGet (m : List (String × Int)) (k : String) : Int :=
  match m with
  | [] => 0
  | p :: rest => if p.1 = k then p.2 else mapGet rest k

/-- Go map write: update the existing key or add it. -/
def mapSet (m : List (String × Int)) (k : String) (v : Int) :
    List (String × Int) :=
  match m with
  | [] => [(k, v)]
  | p :: rest => if p.1 = k then (k, v) :: rest else p :: mapSet rest k v

/-- The event table registered by `NewDegradeFsm`. -/
def degradeEventDst (current event : String) : Option String :=
  if event = "trigger" then
    if current = "l0" then some "l1"
    else if current = "l1" then some "l2"
    else if current = "l2" then some "l3"
    else none
  else if event = "recover" then
    if current = "l3" then some "l2"
    else if current = "l2" then some "l1"
    else if current = "l1" then some "l0"
    else none
  else if event = "resolve" then
    if current = "l1" ∨ current = "l2" ∨ current = "l3" then some "l0" else none
  else none

/-- `d.fsm.Event(ctx, e)` for the Degrade machine: the `enter_state`
callback stamps `stateEnteredAt[dst]` with the wall clock `now`. -/
def DegradeFsm.eventCall (d : DegradeFsm) (e : String) (now : Int) :
    Option DegradeFsm :=
  match degradeEventDst d.current e with
  | none => none
  | some dst =>
    some { d with current := dst,
                  stateEnteredAt := mapSet d.stateEnteredAt dst now }

/-- `DegradeFsm.checkResend`. -/
def DegradeFsm.checkResend (d : DegradeFsm) (ts : Int) (opts : AlertOpts) :
    DegradeFsm × Bool :=
  if opts.resendDelay = 0 then (d, false)
  else if ts - d.lastSentAt ≥ opts.resendDelay then
    ({ d with lastSentAt := ts }, true)
  else (d, false)

/-- `DegradeFsm.handleDegradation`. -/
def DegradeFsm.handleDegradation (d : DegradeFsm) (current : String)
    (ts now : Int) (opts : AlertOpts) : DegradeFsm × Bool × Option String :=
  if current = "l3" then
    let r := d.checkResend ts opts
    (r.1, r.2, none)
  else if ts - mapGet d.stateEnteredAt current < opts.holdDuration then
    (d, false, none)
  else
    match d.eventCall "trigger" now with
    | none => (d, false, some "event error")
    | some d2 => ({ d2 with lastSentAt := ts }, true, none)

/-- `DegradeFsm.handleRecovery`. -/
def DegradeFsm.handleRecovery (d : DegradeFsm) (current : String)
    (ts now : Int) (opts : AlertOpts) : DegradeFsm × Bool × Option String :=
  if opts.autoRecoverAfter > 0 ∧
      ts - mapGet d.stateEnteredAt current ≥ opts.autoRecoverAfter then
    match d.eventCall "resolve" now with
    | none => (d, false, some "event error")
    | some d2 => ({ d2 with lastSentAt := ts }, true, none)
  else if ts - mapGet d.stateEnteredAt current < opts.recoverDuration then
    (d, false, none)
  else
    match d.eventCall "recover" now with
    | none => (d, false, some "event error")
    | some d2 => ({ d2 with lastSentAt := ts }, true, none)

/-- `DegradeFsm.Transition`. -/
def DegradeFsm.Transition (d : DegradeFsm) (active : Bool) (ts now : Int)
    (opts : AlertOpts) : DegradeFsm × Bool × Option String :=
  if active = true then d.handleDegradation d.current ts now opts
  else if d.current ≠ "l0" then d.handleRecovery d.current ts now opts
  else (d, false, none)

/-- `NewDegradeFsm`: starts at `l0`, whose entry time is stamped with the
wall clock at construction. -/
def NewDegradeFsm (now : Int) : DegradeFsm :=
  { current := "l0", stateEnteredAt := [("l0", now)], lastSentAt := 0 }

/-- `AlertSnapshot` from `alert.go`.  The Basic machine leaves
`stateEnteredAt` nil (`none`); the Degrade machine fills it. -/
structure AlertSnapshot where
  state : String
  activeAt : Int := 0
  firedAt : Int := 0
  lastSentAt : Int := 0
  stateEnteredAt : Option (List (String × Int)) := none
deriving DecidableEq, Repr

/-- `PromAlertFsm.Snapshot`. -/
def PromAlertFsm.Snapshot (a : PromAlertFsm) : AlertSnapshot :=
  { state := a.current, activeAt := a.activeAt, firedAt := a.firedAt,
    lastSentAt := a.lastSentAt, stateEnteredAt := none }

/-- `PromAlertFsm.Restore`: rebuilds the machine in the recorded state. -/
def PromAlertFsm.RestoreSnap (snap : AlertSnapshot) : PromAlertFsm :=
  { current := snap.state, activeAt := snap.activeAt,
    firedAt := snap.firedAt, lastSentAt := snap.lastSentAt }

/-- `DegradeFsm.Snapshot`. -/
def DegradeFsm.Snapshot (d : DegradeFsm) : AlertSnapshot :=
  { state := d.current, stateEnteredAt := some d.stateEnteredAt,
    lastSentAt := d.lastSentAt }

/-- `DegradeFsm.Restore` (a nil recorded map becomes the empty map). -/
def DegradeFsm.RestoreSnap (snap : AlertSnapshot) : DegradeFsm :=
  { current := snap.state, stateEnteredAt := snap.stateEnteredAt.getD [],
    lastSentAt := snap.lastSentAt }

/-- The two `IFsm` implementations selected by `NewFsm`. -/
inductive Fsm where
  | basic (m : PromAlertFsm)
  | degrade (m : DegradeFsm)
deriving DecidableEq, Repr

/-- `IFsm.State`. -/
def Fsm.StateOf : Fsm → String
  | .basic m => m.current
  | .degrade m => m.current

/-- `IFsm.Transition` dispatch. -/
def Fsm.Transition (f : Fsm) (active : Bool) (ts now : Int)
    (opts : AlertOpts) : Fsm × Bool × Option String :=
  match f with
  | .basic m =>
    let r := m.Transition active ts now opts
    (.basic r.1, r.2.1, r.2.2)
  | .degrade m =>
    let r := m.Transition active ts now opts
    (.degrade r.1, r.2.1, r.2.2)

/-- `IFsm.Snapshot` dispatch. -/
def Fsm.Snapshot : Fsm → AlertSnapshot
  | .basic m => m.Snapshot
  | .degrade m => m.Snapshot

/-- `IFsm.Restore` dispatch (rebuilds the same variant from a snapshot). -/
def Fsm.RestoreSnap (f : Fsm) (snap : AlertSnapshot) : Fsm :=
  match f with
  | .basic _ => .basic (PromAlertFsm.RestoreSnap snap)
  | .degrade _ => .degrade (DegradeFsm.RestoreSnap snap)

/-- `NewFsm` from `fsm.go`: dispatch on the alert type tag. -/
def NewFsm (typ : String) (now : Int) : Except String Fsm :=
  if typ = "basic" then .ok (.basic NewPromAlertFsm)
  else if typ = "multi-tier" then .ok (.degrade (NewDegradeFsm now))
  else .error ("unsupported alert type: " ++ typ)

/-- Label sets (`labels.Labels`), as name/value pairs. -/
abbrev Labels := List (String × String)

/-- `Alert` from `alert.go` (the mutex is irrelevant to the sequential
semantics and is dropped). -/
structure Alert where
  lbls : Labels
  typ : String
  opt : AlertOpts
  value : Int
  fsm : Fsm
deriving DecidableEq, Repr

/-- `NewAlert`. -/
def NewAlert (typ : String) (lbs : Labels) (opt : AlertOpts) (now : Int) :
    Except String Alert :=
  match NewFsm typ now with
  | .error e => .error e
  | .ok f => .ok { lbls := lbs, typ := typ, opt := opt, value := 0, fsm := f }

/-- `Alert.Transition`: forwards to the wrapped FSM with the alert's own
options. -/
def Alert.Transition (a : Alert) (active : Bool) (ts now : Int) :
    Alert × Bool × Option String :=
  let r := a.fsm.Transition active ts now a.opt
  ({ a with fsm := r.1 }, r.2.1, r.2.2)

/-- `Alert.State`. -/
def Alert.StateOf (a : Alert) : String := a.fsm.StateOf

/-- The serialized record `alertPersisted` (options are not persisted).
Go's JSON encoding of this record is a deterministic injective function
of it, so byte equality of two marshalled alerts is equality of their
records. -/
structure alertPersisted where
  lbls : Labels
  value : Int
  snapshot : AlertSnapshot
  typ : String
deriving DecidableEq, Repr

/-- `Alert.Marshal`. -/
def Alert.Marshal (a : Alert) : alertPersisted :=
  { lbls := a.lbls, value := a.value, snapshot := a.fsm.Snapshot,
    typ := a.typ }

/-- `Alert.Restore`: re-instantiates the FSM variant from the persisted
type tag, applies the snapshot, installs the supplied live options. -/
def Alert.Restore (p : alertPersisted) (opt : AlertOpts) (now : Int) :
    Except String Alert :=
  match NewFsm p.typ now with
  | .error e => .error e
  | .ok f =>
    .ok { lbls := p.lbls, value := p.value, typ := p.typ, opt := opt,
          fsm := f.RestoreSnap p.snapshot }

/-- An alert is well-typed when its type tag matches its FSM variant;
every alert built by `NewAlert` or `Alert.Restore` satisfies this. -/
def Alert.WellTyped (a : Alert) : Prop :=
  match a.fsm with
  | .basic _ => a.typ = "basic"
  | .degrade _ => a.typ = "multi-tier"

instance (a : Alert) : Decidable a.WellTyped := by
  unfold Alert.WellTyped; cases a.fsm <;> infer_instance

/-- The 64-bit fingerprint keying a rule's active map, modelled as the
label list itself (a deterministic, injective hash). -/
abbrev Fingerprint := List (String × String)

/-- `labels.Labels.Hash`. -/
def lblHash (l : Labels) : Fingerprint := l

/-- `labels.Builder.Get`: the value of a name, `""` when absent. -/
def lblGet (m : Labels) (k : String) : String :=
  match m with
  | [] => ""
  | p :: rest => if p.1 = k then p.2 else lblGet rest k

/-- `labels.Builder.Del`: drop a name. -/
def lblDel (m : Labels) (k : String) : Labels :=
  m.filter (fun p => decide (p.1 ≠ k))

/-- Insert a pair into a name-sorted label list. -/
def lblInsSorted (p : String × String) : Labels → Labels
  | [] => [p]
  | q :: rest =>
    if p.1 ≤ q.1 then p :: q :: rest else q :: lblInsSorted p rest

/-- `labels.Builder.Labels`: the final label set, sorted by name. -/
def lblSorted (m : Labels) : Labels := m.foldr lblInsSorted []

/-- `labels.Builder.Set`: setting an empty value deletes the name,
otherwise the name is updated or added. -/
def lblSet (m : Labels) (k v : String) : Labels :=
  if v = "" then lblDel m k
  else
    match m with
    | [] => [(k, v)]
    | p :: rest => if p.1 = k then (k, v) :: rest else p :: lblSet rest k v

/-- A query result sample (`promql.Sample`): labels and a value. -/
structure Sample where
  metric : Labels
  f : Int
deriving DecidableEq, Repr

/-- `Rule` from `rule.go`; `active` is the fingerprint-keyed map of
active alerts. -/
structure Rule where
  name : String
  expr : String
  alertType : String
  alertOpts : AlertOpts
  lbls : Labels
  anns : Labels
  active : List (Fingerprint × Alert)
deriving DecidableEq, Repr

/-- `NewRule`: validates name, expression and durations.  The Go
constructor takes no alert type, so `AlertType` keeps its zero value
`""`, and only the three Basic durations are configurable
(`RecoverDuration` and `AutoRecoverAfter` stay zero). -/
def NewRule (name expr : String) (hold keepFiring resendDelay : Int)
    (lbs ann : Labels) : Except String Rule :=
  if name = "" ∨ expr = "" then .error "empty name or expr"
  else if hold < 0 ∨ keepFiring < 0 ∨ resendDelay < 0 then
    .error "durations cannot be negative"
  else
    .ok { name := name, expr := expr, alertType := "",
          alertOpts :=
            { holdDuration := hold, keepFiringFor := keepFiring,
              resendDelay := resendDelay, recoverDuration := 0,
              autoRecoverAfter := 0 },
          lbls := lbs, anns := ann, active := [] }

/-- `Rule.formatLabels`: rule labels fill only absent names, the metric
name (`__name__`) is removed, `alertname` is set to the rule name. -/
def Rule.formatLabels (r : Rule) (sampleLabels : Labels) : Labels :=
  let b := r.lbls.foldl
    (fun b l => if lblGet b l.1 = "" then lblSet b l.1 l.2 else b)
    sampleLabels
  lblSorted (lblSet (lblDel b "__name__") "alertname" r.name)

/-- Go map read on the active map. -/
def activeGet (m : List (Fingerprint × Alert)) (fp : Fingerprint) :
    Option Alert :=
  match m with
  | [] => none
  | p :: rest => if p.1 = fp then some p.2 else activeGet rest fp

/-- Go map write on the active map. -/
def activeSet (m : List (Fingerprint × Alert)) (fp : Fingerprint)
    (a : Alert) : List (Fingerprint × Alert) :=
  match m with
  | [] => [(fp, a)]
  | p :: rest => if p.1 = fp then (fp, a) :: rest else p :: activeSet rest fp a

/-- Go `delete` on the active map. -/
def activeDel (m : List (Fingerprint × Alert)) (fp : Fingerprint) :
    List (Fingerprint × Alert) :=
  match m with
  | [] => []
  | p :: rest => if p.1 = fp then activeDel rest fp else p :: activeDel rest fp

/-- The active map has no duplicate fingerprints (always true of a Go
map; needed when the map is quantified as an association list). -/
def NoDupKeys (m : List (Fingerprint × Alert)) : Prop :=
  (m.map Prod.fst).Nodup

/-- Result of the per-sample phase of `Rule.Eval`: the mutated active
map, the fingerprints seen this cycle, the collected alerts, and the
error that aborted the phase, if any. -/
structure EvalPhase where
  act : List (Fingerprint × Alert)
  fps : List Fingerprint
  firing : List Alert
  err : Option String
deriving Repr

/-- The per-sample loop of `Rule.Eval` (step 2 of §4.4): merge labels,
look up or create the alert, set its value, drive `Transition(true, ts)`;
a transition error skips only that sample, a creation error aborts the
phase (mutations made so far persist, as the Go method returns with the
rule's map already updated in place). -/
def evalSamplesGo (r : Rule) (ts now : Int) :
    List Sample → List (Fingerprint × Alert) → List Fingerprint →
    List Alert → EvalPhase
  | [], act, fps, firing => { act := act, fps := fps, firing := firing, err := none }
  | s :: rest, act, fps, firing =>
    let lbs := r.formatLabels s.metric
    let fp := lblHash lbs
    let fps2 := fps ++ [fp]
    match activeGet act fp with
    | none =>
      match NewAlert r.alertType lbs r.alertOpts now with
      | .error e => { act := act, fps := fps2, firing := firing, err := some e }
      | .ok alert =>
        let a1 : Alert := { alert with value := s.f }
        let tr := a1.Transition true ts now
        let act2 := activeSet act fp tr.1
        if tr.2.2 ≠ none then evalSamplesGo r ts now rest act2 fps2 firing
        else if tr.2.1 then
          evalSamplesGo r ts now rest act2 fps2 (firing ++ [tr.1])
        else evalSamplesGo r ts now rest act2 fps2 firing
    | some alert =>
      let a1 : Alert := { alert with value := s.f }
      let tr := a1.Transition true ts now
      let act2 := activeSet act fp tr.1
      if tr.2.2 ≠ none then evalSamplesGo r ts now rest act2 fps2 firing
      else if tr.2.1 then
        evalSamplesGo r ts now rest act2 fps2 (firing ++ [tr.1])
      else evalSamplesGo r ts now rest act2 fps2 firing

/-- The deactivation pass of `Rule.Eval` (step 3 of §4.4), iterating over
the entries `todo` of the active map.  It mirrors the source exactly:
the error of `Transition(false, ts)` is bound to the blank identifier,
after which the loop tests the *outer* `err` variable — `staleErr` here —
which is necessarily nil when the pass runs; the alert is collected and
deleted from the map exactly when `shouldNotify` is true.  The transition
mutates the alert object in place, so the map entry is updated even when
the alert is kept.  `tf` is the transition applied to each alert
(`Transition(false, ts)` in `Rule.Eval`). -/
def deactivationGo (tf : Alert → Alert × Bool × Option String)
    (staleErr : Option String) (fps : List Fingerprint) :
    List (Fingerprint × Alert) → List (Fingerprint × Alert) →
    List Alert → List (Fingerprint × Alert) × List Alert
  | [], act, firing => (act, firing)
  | (fp, alert) :: rest, act, firing =>
    if fps.contains fp then deactivationGo tf staleErr fps rest act firing
    else
      let tr := tf alert
      let act1 := activeSet act fp tr.1
      if staleErr ≠ none then deactivationGo tf staleErr fps rest act1 firing
      else if tr.2.1 then
        deactivationGo tf staleErr fps rest (activeDel act1 fp) (firing ++ [tr.1])
      else deactivationGo tf staleErr fps rest act1 firing

/-- The external query collaborator. -/
abbrev QueryFunc := String → Int → Except String (List Sample)

/-- `Rule.Eval`: query, per-sample phase, deactivation pass.  The result
is the rule with its mutated active map together with the collected
alerts or the error.  On a query error the rule is untouched; on a
per-sample creation error the mutations already made persist. -/
def Rule.Eval (r : Rule) (ts now : Int) (query : QueryFunc) :
    Rule × Except String (List Alert) :=
  match query r.expr ts with
  | .error e => (r, .error e)
  | .ok vector =>
    let ph := evalSamplesGo r ts now vector r.active [] []
    match ph.err with
    | some e => ({ r with active := ph.act }, .error e)
    | none =>
      let res := deactivationGo (fun a => a.Transition false ts now) none
        ph.fps ph.act ph.act ph.firing
      ({ r with active := res.1 }, .ok res.2)

/-- `Notification` from `notifier.go`. -/
structure Notification where
  rule : String
  status : String
  lbls : Labels
  value : Int
  startsAt : Int
  endsAt : Int
deriving DecidableEq, Repr

/-- `NewNotification`: projection of an alert at the moment it notifies;
`EndsAt` is stamped with the wall clock `now` only when the snapshot
state is `inactive` and its `firedAt` is non-zero. -/
def NewNotification (r : Rule) (a : Alert) (now : Int) : Notification :=
  let snap := a.fsm.Snapshot
  let n : Notification :=
    { rule := r.name, status := snap.state, lbls := a.lbls,
      value := a.value, startsAt := snap.firedAt, endsAt := 0 }
  if snap.state = "inactive" ∧ snap.firedAt ≠ 0 then { n with endsAt := now }
  else n

/-- The Go panic outcome of writing to a nil map. -/
inductive GoPanic where
  | nilMapAssign
deriving DecidableEq, Repr

/-- `MemoryStorage` from `store.go`: its `alerts` map has no constructor
initializing it, so the zero value holds a nil map (`none`). -/
structure MemoryStorage where
  alerts : Option (List (String × List alertPersisted))
deriving Repr

/-- Read of the rule-name-keyed store map. -/
def strMapGet (m : List (String × List alertPersisted)) (k : String) :
    Option (List alertPersisted) :=
  match m with
  | [] => none
  | p :: rest => if p.1 = k then some p.2 else strMapGet rest k

/-- Write of the rule-name-keyed store map. -/
def strMapSet (m : List (String × List alertPersisted)) (k : String)
    (v : List alertPersisted) : List (String × List alertPersisted) :=
  match m with
  | [] => [(k, v)]
  | p :: rest => if p.1 = k then (k, v) :: rest else p :: strMapSet rest k v

/-- `MemoryStorage.SaveAlerts`: marshals every alert, then assigns into
`m.alerts[r.Name]` — a runtime panic when the map is nil. -/
def MemoryStorage.SaveAlerts (m : MemoryStorage) (r : Rule)
    (alerts : List Alert) : Except GoPanic MemoryStorage :=
  let raw := alerts.map Alert.Marshal
  match m.alerts with
  | none => .error GoPanic.nilMapAssign
  | some tbl => .ok { alerts := some (strMapSet tbl r.name raw) }

/-- The restore loop of `MemoryStorage.LoadAlerts`. -/
def loadAlertsGo (r : Rule) (now : Int) :
    List alertPersisted → Except String (List Alert)
  | [] => .ok []
  | p :: rest =>
    match NewAlert r.alertType [] r.alertOpts now with
    | .error e => .error e
    | .ok _ =>
      match Alert.Restore p r.alertOpts now with
      | .error e => .error e
      | .ok a =>
        match loadAlertsGo r now rest with
        | .error e => .error e
        | .ok as => .ok (a :: as)

/-- `MemoryStorage.LoadAlerts`: reading a nil map finds no entry, so the
zero-value storage yields an empty result with no error. -/
def MemoryStorage.LoadAlerts (m : MemoryStorage) (r : Rule) (now : Int) :
    Except String (List Alert) :=
  match strMapGet (m.alerts.getD []) r.name with
  | none => .ok []
  | some raw => loadAlertsGo r now raw

/-- A concrete well-formed Basic rule used by concrete evaluations. -/
def exRule : Rule :=
  { name := "r", expr := "up", alertType := "basic", alertOpts := zeroOpts,
    lbls := [], anns := [], active := [] }

/-- The successor level of the Degrade ladder, as registered in the
trigger rows of `NewDegradeFsm`'s event table. -/
def degradeNext : String → String
  | "l0" => "l1"
  | "l1" => "l2"
  | "l2" => "l3"
  | s => s

/-- The predecessor level of the Degrade ladder, as registered in the
recover rows of `NewDegradeFsm`'s event table. -/
def degradePrev : String → String
  | "l3" => "l2"
  | "l2" => "l1"
  | "l1" => "l0"
  | s => s

/-- Options with a one-minute hold (in seconds) and all else zero. -/
def opts60 : AlertOpts :=
  { holdDuration := 60, keepFiringFor := 0, resendDelay := 0,
    recoverDuration := 0, autoRecoverAfter := 0 }

/-- Options with a five-second hold and all else zero. -/
def opts5 : AlertOpts :=
  { holdDuration := 5, keepFiringFor := 0, resendDelay := 0,
    recoverDuration := 0, autoRecoverAfter := 0 }

/-- A concrete Degrade machine sitting at `l1` since time 0. -/
def c2WitFsm : DegradeFsm :=
  { current := "l1", stateEnteredAt := [("l0", 0), ("l1", 0)], lastSentAt := 0 }

/-- A concrete Degrade alert at level `l2` (all entry times 0). -/
def c3Alert : Alert :=
  { lbls := [("alertname", "r")]
    typ := "multi-tier"
    opt := zeroOpts
    value := 0
    fsm := .degrade { current := "l2"
                      stateEnteredAt := [("l0", 0), ("l1", 0), ("l2", 0)]
                      lastSentAt := 0 } }

/-- `c3Alert` after one recovery step at time 10. -/
def c3AlertAfter : Alert :=
  { lbls := [("alertname", "r")]
    typ := "multi-tier"
    opt := zeroOpts
    value := 0
    fsm := .degrade { current := "l1"
                      stateEnteredAt := [("l0", 0), ("l1", 10), ("l2", 0)]
                      lastSentAt := 10 } }

/-- A Degrade rule whose active map holds `c3Alert`. -/
def c3Rule : Rule :=
  { name := "r"
    expr := "up"
    alertType := "multi-tier"
    alertOpts := zeroOpts
    lbls := []
    anns := []
    active := [([("alertname", "r")], c3Alert)] }

/-- A concrete Degrade alert at level `l1`. -/
def c3WitAlert : Alert :=
  { lbls := [("k", "v")]
    typ := "multi-tier"
    opt := zeroOpts
    value := 0
    fsm := .degrade { current := "l1"
                      stateEnteredAt := [("l0", 0), ("l1", 0)]
                      lastSentAt := 0 } }

/-- A concrete Basic alert pending since time 1, with a value. -/
def c4Alert : Alert :=
  { lbls := [("a", "b")]
    typ := "basic"
    opt := zeroOpts
    value := 3
    fsm := .basic { current := "pending"
                    activeAt := 1
                    firedAt := 0
                    lastSentAt := 0 } }

/-- A fresh Basic alert (the `NewAlert "basic"` result). -/
def c5Alert0 : Alert :=
  { lbls := [("alertname", "r")]
    typ := "basic"
    opt := zeroOpts
    value := 0
    fsm := .basic { current := "inactive"
                    activeAt := 0
                    firedAt := 0
                    lastSentAt := 0 } }

/-- `c5Alert0` after firing immediately at time 5 (hold is zero). -/
def c5Alert1 : Alert :=
  { lbls := [("alertname", "r")]
    typ := "basic"
    opt := zeroOpts
    value := 0
    fsm := .basic { current := "firing"
                    activeAt := 0
                    firedAt := 5
                    lastSentAt := 5 } }

/-- `c5Alert1` after resolving at time 9; `firedAt` was reset to zero on
leaving Firing. -/
def c5Alert2 : Alert :=
  { lbls := [("alertname", "r")]
    typ := "basic"
    opt := zeroOpts
    value := 0
    fsm := .basic { current := "inactive"
                    activeAt := 0
                    firedAt := 0
                    lastSentAt := 5 } }

/-- The rule value produced by `NewRule "n" "e" 0 0 0 nil nil`: its
`AlertType` is the zero value `""`. -/
def c7Rule : Rule :=
  { name := "n"
    expr := "e"
    alertType := ""
    alertOpts := zeroOpts
    lbls := []
    anns := []
    active := [] }

/-- A concrete Basic alert in Firing state. -/
def c9Alert : Alert :=
  { lbls := [("q", "w")]
    typ := "basic"
    opt := zeroOpts
    value := 0
    fsm := .basic { current := "firing"
                    activeAt := 0
                    firedAt := 1
                    lastSentAt := 1 } }

/-! ### Supporting lemmas about the active map and the deactivation pass -/

theorem activeGet_del_self (m : List (Fingerprint × Alert)) (fp : Fingerprint) :
    activeGet (activeDel m fp) fp = none := by
  induction m with
  | nil => rfl
  | cons p rest ih =>
    by_cases h : p.1 = fp
    · simpa [activeDel, h] using ih
    · simpa [activeDel, activeGet, h] using ih

theorem activeGet_del_other (m : List (Fingerprint × Alert)) (fp fp2 : Fingerprint)
    (h : fp2 ≠ fp) : activeGet (activeDel m fp2) fp = activeGet m fp := by
  induction m with
  | nil => rfl
  | cons p rest ih =>
    by_cases hp : p.1 = fp2
    · have hpf : ¬ p.1 = fp := by rw [hp]; exact h
      simpa [activeDel, activeGet, hp, hpf, h] using ih
    · by_cases hq : p.1 = fp
      · simp [activeDel, activeGet, hp, hq, h, Ne.symm h]
      · simpa [activeDel, activeGet, hp, hq] using ih

theorem activeGet_set_self (m : List (Fingerprint × Alert)) (fp : Fingerprint)
    (a : Alert) : activeGet (activeSet m fp a) fp = some a := by
  induction m with
  | nil => simp [activeSet, activeGet]
  | cons p rest ih =>
    by_cases h : p.1 = fp
    · simp [activeSet, h, activeGet]
    · simp [activeSet, h, activeGet, ih]

theorem activeGet_set_other (m : List (Fingerprint × Alert)) (fp fp2 : Fingerprint)
    (a : Alert) (h : fp2 ≠ fp) :
    activeGet (activeSet m fp2 a) fp = activeGet m fp := by
  induction m with
  | nil => simp [activeSet, activeGet, h]
  | cons p rest ih =>
    by_cases hp : p.1 = fp2
    · have hpf : ¬ p.1 = fp := by rw [hp]; exact h
      simp [activeSet, hp, activeGet, h, hpf]
    · simp [activeSet, hp, activeGet, ih]

theorem deactivationGo_cons (tf : Alert → Alert × Bool × Option String)
    (se : Option String) (fps : List Fingerprint) (fp1 : Fingerprint) (a1 : Alert)
    (rest act : List (Fingerprint × Alert)) (firing : List Alert) :
    deactivationGo tf se fps ((fp1, a1) :: rest) act firing =
      if fps.contains fp1 then deactivationGo tf se fps rest act firing
      else if se ≠ none then
        deactivationGo tf se fps rest (activeSet act fp1 (tf a1).1) firing
      else if (tf a1).2.1 then
        deactivationGo tf se fps rest (activeDel (activeSet act fp1 (tf a1).1) fp1)
          (firing ++ [(tf a1).1])
      else deactivationGo tf se fps rest (activeSet act fp1 (tf a1).1) firing := rfl

/-- A fingerprint not iterated over keeps its map entry through the
deactivation pass. -/
theorem deactivationGo_get_notmem (tf : Alert → Alert × Bool × Option String)
    (se : Option String) (fps : List Fingerprint) (fp : Fingerprint) :
    ∀ (todo act : List (Fingerprint × Alert)) (firing : List Alert),
    fp ∉ todo.map Prod.fst →
    activeGet (deactivationGo tf se fps todo act firing).1 fp = activeGet act fp := by
  intro todo
  induction todo with
  | nil => intro act firing _; rfl
  | cons p rest ih =>
    intro act firing hmem
    rcases p with ⟨fp1, a1⟩
    have hne : fp1 ≠ fp := by
      intro hh; exact hmem (by simp [hh])
    have hrest : fp ∉ rest.map Prod.fst := by
      intro hh; exact hmem (by simp [hh])
    rw [deactivationGo_cons]
    by_cases hc : fps.contains fp1
    · rw [if_pos hc]; exact ih act firing hrest
    · rw [if_neg hc]
      by_cases hse : se = none
      · rw [if_neg (by simp [hse])]
        by_cases hn : (tf a1).2.1
        · rw [if_pos hn, ih _ _ hrest, activeGet_del_other _ _ _ hne,
            activeGet_set_other _ _ _ _ hne]
        · rw [if_neg hn, ih _ _ hrest, activeGet_set_other _ _ _ _ hne]
      · rw [if_pos hse, ih _ _ hrest, activeGet_set_other _ _ _ _ hne]

/-- Characterization of the deactivation pass on an unseen fingerprint,
with the stale error nil as in `Rule.Eval`: the entry is deleted when the
transition notifies and otherwise holds the transitioned alert. -/
theorem deactivationGo_get_mem (tf : Alert → Alert × Bool × Option String)
    (fps : List Fingerprint) (fp : Fingerprint) (a : Alert) :
    ∀ (todo act : List (Fingerprint × Alert)) (firing : List Alert),
    (fp, a) ∈ todo → NoDupKeys todo → fps.contains fp = false →
    activeGet (deactivationGo tf none fps todo act firing).1 fp =
      (if (tf a).2.1 then none else some (tf a).1) := by
  intro todo
  induction todo with
  | nil => intro act firing hmem; exact absurd hmem (by simp)
  | cons p rest ih =>
    intro act firing hmem hnd hfps
    rcases p with ⟨fp1, a1⟩
    have hndrest : NoDupKeys rest := by
      unfold NoDupKeys at hnd ⊢
      rw [List.map_cons] at hnd
      exact (List.nodup_cons.mp hnd).2
    by_cases hk : fp1 = fp
    · subst hk
      have hnotin : fp1 ∉ rest.map Prod.fst := by
        unfold NoDupKeys at hnd
        rw [List.map_cons] at hnd
        exact (List.nodup_cons.mp hnd).1
      have ha : a1 = a := by
        rcases List.mem_cons.mp hmem with heq | hin
        · exact ((Prod.ext_iff.mp heq).2).symm
        · exact absurd (List.mem_map.mpr ⟨(fp1, a), hin, rfl⟩) hnotin
      subst ha
      rw [deactivationGo_cons,
        if_neg (by intro h; rw [hfps] at h; exact absurd h (by decide)),
        if_neg (by simp)]
      by_cases hn : (tf a1).2.1
      · rw [if_pos hn, if_pos hn,
          deactivationGo_get_notmem _ _ _ _ _ _ _ hnotin, activeGet_del_self]
      · rw [if_neg hn, if_neg hn,
          deactivationGo_get_notmem _ _ _ _ _ _ _ hnotin, activeGet_set_self]
    · have hin : (fp, a) ∈ rest := by
        rcases List.mem_cons.mp hmem with heq | hin
        · exact absurd ((Prod.ext_iff.mp heq).1).symm hk
        · exact hin
      rw [deactivationGo_cons]
      by_cases hc : fps.contains fp1
      · rw [if_pos hc]; exact ih act firing hin hndrest hfps
      · rw [if_neg hc, if_neg (by simp)]
        by_cases hn : (tf a1).2.1
        · rw [if_pos hn]; exact ih _ _ hin hndrest hfps
        · rw [if_neg hn]; exact ih _ _ hin hndrest hfps

/-- The deactivation pass reads only the transitioned alert and the
notify flag of the per-alert transition, never its error component. -/
theorem deactivationGo_congr (tf tf2 : Alert → Alert × Bool × Option String)
    (h : ∀ x, (tf2 x).1 = (tf x).1 ∧ (tf2 x).2.1 = (tf x).2.1)
    (se : Option String) (fps : List Fingerprint) :
    ∀ (todo act : List (Fingerprint × Alert)) (firing : List Alert),
    deactivationGo tf2 se fps todo act firing =
      deactivationGo tf se fps todo act firing := by
  intro todo
  induction todo with
  | nil => intro act firing; rfl
  | cons p rest ih =>
    intro act firing
    rcases p with ⟨fp1, a1⟩
    rw [deactivationGo_cons, deactivationGo_cons, (h a1).1, (h a1).2]
    by_cases hc : fps.contains fp1
    · rw [if_pos hc, if_pos hc, ih]
    · rw [if_neg hc, if_neg hc]
      by_cases hse : se ≠ none
      · rw [if_pos hse, if_pos hse, ih]
      · rw [if_neg hse, if_neg hse]
        by_cases hn : (tf a1).2.1
        · rw [if_pos hn, if_pos hn, ih]
        · rw [if_neg hn, if_neg hn, ih]

/-- A Basic machine that notifies on an `active = false` transition has
necessarily resolved: its new state is `inactive`. -/
theorem prom_false_notify_inactive (m : PromAlertFsm) (ts now : Int)
    (o : AlertOpts) (hn : (m.Transition false ts now o).2.1 = true) :
    (m.Transition false ts now o).1.current = "inactive" := by
  by_cases hp : m.current = "pending"
  · simp [PromAlertFsm.Transition, PromAlertFsm.eventCall, promEventDst, hp]
  · by_cases hf : m.current = "firing"
    · simp [PromAlertFsm.Transition, PromAlertFsm.eventCall, promEventDst, hf]
    · by_cases hc : m.current = "inactive"
      · simp [PromAlertFsm.Transition, hc] at hn
      · simp [PromAlertFsm.Transition, PromAlertFsm.eventCall, promEventDst,
          hp, hf, hc] at hn

/-! ### Claim theorems -/

/-- C1: the Basic `Transition(active, ts)` follows the §4.1 table.  From
Pending with `active = true` it changes nothing and returns no notify
while `ts − activeAt < HoldDuration`, and moves to Firing with
`lastSentAt = ts` and notify once `ts − activeAt ≥ HoldDuration`; on
every entry to Firing (from Pending, or from Inactive with zero hold)
`firedAt` is (re)stamped with the wall clock; on leaving Firing to
Inactive — resolve or keep-firing auto-resolve — `firedAt` resets to the
zero value.  Quantified over every Basic state, active flag, `ts`, wall
clock and non-negative options. -/
theorem c1_basic_transition_table (a : PromAlertFsm) (active : Bool)
    (ts now : Int) (opts : AlertOpts) (_hopts : opts.Nonneg) :
    (a.current = "pending" → active = true →
      ts - a.activeAt < opts.holdDuration →
      a.Transition active ts now opts = (a, false, none)) ∧
    (a.current = "pending" → active = true →
      opts.holdDuration ≤ ts - a.activeAt →
      a.Transition active ts now opts =
        ({ current := "firing", activeAt := a.activeAt, firedAt := now,
           lastSentAt := ts }, true, none)) ∧
    (a.current = "inactive" → active = true → opts.holdDuration = 0 →
      a.Transition active ts now opts =
        ({ current := "firing", activeAt := a.activeAt, firedAt := now,
           lastSentAt := ts }, true, none)) ∧
    (a.current = "firing" → active = false →
      a.Transition active ts now opts =
        ({ current := "inactive", activeAt := a.activeAt, firedAt := 0,
           lastSentAt := a.lastSentAt }, true, none)) ∧
    (a.current = "firing" → active = true → 0 < opts.keepFiringFor →
      opts.keepFiringFor ≤ ts - a.firedAt →
      a.Transition active ts now opts =
        ({ current := "inactive", activeAt := a.activeAt, firedAt := 0,
           lastSentAt := a.lastSentAt }, true, none)) := by
  refine ⟨?_, ?_, ?_, ?_, ?_⟩
  · intro hc hact h
    subst hact
    simp [PromAlertFsm.Transition, hc, h]
  · intro hc hact h
    subst hact
    have h1 : ¬ (ts - a.activeAt < opts.holdDuration) := by omega
    simp [PromAlertFsm.Transition, PromAlertFsm.eventCall, promEventDst, hc, h1]
  · intro hc hact h
    subst hact
    simp [PromAlertFsm.Transition, PromAlertFsm.eventCall, promEventDst, hc, h]
  · intro hc hact
    subst hact
    simp [PromAlertFsm.Transition, PromAlertFsm.eventCall, promEventDst, hc]
  · intro hc hact h1 h2
    subst hact
    simp [PromAlertFsm.Transition, PromAlertFsm.eventCall, promEventDst,
      hc, h1, h2]

/-- Witness for C1: a Pending machine past its hold fires. -/
theorem c1_basic_transition_table_witness :
    opts60.Nonneg ∧
    PromAlertFsm.Transition
        { current := "pending", activeAt := 0, firedAt := 0, lastSentAt := 0 }
        true 61 61 opts60 =
      ({ current := "firing", activeAt := 0, firedAt := 61, lastSentAt := 61 },
        true, none) :=
  ⟨by decide,
    (c1_basic_transition_table
      { current := "pending", activeAt := 0, firedAt := 0, lastSentAt := 0 }
      true 61 61 opts60 (by decide)).2.1 rfl rfl (by decide)⟩

/-- C2: the Degrade `Transition(active, ts)` follows the §4.2 contract:
below `l3` with `active = true` it is a no-op until the hold is met and
then climbs one level with `lastSentAt = ts` and notify; above `l0` with
`active = false` it resolves straight to `l0` when `AutoRecoverAfter > 0`
and the time in state reaches it, otherwise it steps one level down only
once the recover duration is met; at `l3` with `active = true` it
notifies again exactly when `ResendDelay > 0` and
`ts − lastSentAt ≥ ResendDelay`. -/
theorem c2_degrade_transition_contract (d : DegradeFsm) (active : Bool)
    (ts now : Int) (opts : AlertOpts) (hopts : opts.Nonneg) :
    (active = true → (d.current = "l0" ∨ d.current = "l1" ∨ d.current = "l2") →
      ts - mapGet d.stateEnteredAt d.current < opts.holdDuration →
      d.Transition active ts now opts = (d, false, none)) ∧
    (active = true → (d.current = "l0" ∨ d.current = "l1" ∨ d.current = "l2") →
      opts.holdDuration ≤ ts - mapGet d.stateEnteredAt d.current →
      d.Transition active ts now opts =
        ({ current := degradeNext d.current,
           stateEnteredAt := mapSet d.stateEnteredAt (degradeNext d.current) now,
           lastSentAt := ts }, true, none)) ∧
    (active = false → (d.current = "l1" ∨ d.current = "l2" ∨ d.current = "l3") →
      0 < opts.autoRecoverAfter →
      opts.autoRecoverAfter ≤ ts - mapGet d.stateEnteredAt d.current →
      d.Transition active ts now opts =
        ({ current := "l0", stateEnteredAt := mapSet d.stateEnteredAt "l0" now,
           lastSentAt := ts }, true, none)) ∧
    (active = false → (d.current = "l1" ∨ d.current = "l2" ∨ d.current = "l3") →
      ¬ (0 < opts.autoRecoverAfter ∧
           opts.autoRecoverAfter ≤ ts - mapGet d.stateEnteredAt d.current) →
      ts - mapGet d.stateEnteredAt d.current < opts.recoverDuration →
      d.Transition active ts now opts = (d, false, none)) ∧
    (active = false → (d.current = "l1" ∨ d.current = "l2" ∨ d.current = "l3") →
      ¬ (0 < opts.autoRecoverAfter ∧
           opts.autoRecoverAfter ≤ ts - mapGet d.stateEnteredAt d.current) →
      opts.recoverDuration ≤ ts - mapGet d.stateEnteredAt d.current →
      d.Transition active ts now opts =
        ({ current := degradePrev d.current,
           stateEnteredAt := mapSet d.stateEnteredAt (degradePrev d.current) now,
           lastSentAt := ts }, true, none)) ∧
    (active = true → d.current = "l3" →
      ((d.Transition active ts now opts).2.1 = true ↔
        (0 < opts.resendDelay ∧ opts.resendDelay ≤ ts - d.lastSentAt)) ∧
      (0 < opts.resendDelay → opts.resendDelay ≤ ts - d.lastSentAt →
        d.Transition active ts now opts =
          ({ d with lastSentAt := ts }, true, none))) := by
  obtain ⟨hh, hk, hr, hrec, hauto⟩ := hopts
  refine ⟨?_, ?_, ?_, ?_, ?_, ?_⟩
  · intro hact hmem h
    subst hact
    rcases hmem with hc | hc | hc
    · rw [hc] at h
      simp [DegradeFsm.Transition, DegradeFsm.handleDegradation, hc, h]
    · rw [hc] at h
      simp [DegradeFsm.Transition, DegradeFsm.handleDegradation, hc, h]
    · rw [hc] at h
      simp [DegradeFsm.Transition, DegradeFsm.handleDegradation, hc, h]
  · intro hact hmem h
    subst hact
    rcases hmem with hc | hc | hc
    · rw [hc] at h
      have h1 : ¬ (ts - mapGet d.stateEnteredAt "l0" < opts.holdDuration) := by
        omega
      simp [DegradeFsm.Transition, DegradeFsm.handleDegradation,
        DegradeFsm.eventCall, degradeEventDst, degradeNext, hc, h1]
    · rw [hc] at h
      have h1 : ¬ (ts - mapGet d.stateEnteredAt "l1" < opts.holdDuration) := by
        omega
      simp [DegradeFsm.Transition, DegradeFsm.handleDegradation,
        DegradeFsm.eventCall, degradeEventDst, degradeNext, hc, h1]
    · rw [hc] at h
      have h1 : ¬ (ts - mapGet d.stateEnteredAt "l2" < opts.holdDuration) := by
        omega
      simp [DegradeFsm.Transition, DegradeFsm.handleDegradation,
        DegradeFsm.eventCall, degradeEventDst, degradeNext, hc, h1]
  · intro hact hmem h1 h2
    subst hact
    rcases hmem with hc | hc | hc
    · rw [hc] at h2
      simp [DegradeFsm.Transition, DegradeFsm.handleRecovery,
        DegradeFsm.eventCall, degradeEventDst, ge_iff_le, gt_iff_lt, hc, h1, h2]
    · rw [hc] at h2
      simp [DegradeFsm.Transition, DegradeFsm.handleRecovery,
        DegradeFsm.eventCall, degradeEventDst, ge_iff_le, gt_iff_lt, hc, h1, h2]
    · rw [hc] at h2
      simp [DegradeFsm.Transition, DegradeFsm.handleRecovery,
        DegradeFsm.eventCall, degradeEventDst, ge_iff_le, gt_iff_lt, hc, h1, h2]
  · intro hact hmem hna h
    subst hact
    rcases hmem with hc | hc | hc
    · rw [hc] at hna h
      simp [DegradeFsm.Transition, DegradeFsm.handleRecovery,
        ge_iff_le, gt_iff_lt, hc, h, hna]
    · rw [hc] at hna h
      simp [DegradeFsm.Transition, DegradeFsm.handleRecovery,
        ge_iff_le, gt_iff_lt, hc, h, hna]
    · rw [hc] at hna h
      simp [DegradeFsm.Transition, DegradeFsm.handleRecovery,
        ge_iff_le, gt_iff_lt, hc, h, hna]
  · intro hact hmem hna h
    subst hact
    rcases hmem with hc | hc | hc
    · rw [hc] at hna h
      have h1 : ¬ (ts - mapGet d.stateEnteredAt "l1" < opts.recoverDuration) := by
        omega
      simp [DegradeFsm.Transition, DegradeFsm.handleRecovery,
        DegradeFsm.eventCall, degradeEventDst, degradePrev,
        ge_iff_le, gt_iff_lt, hc, h1, hna]
    · rw [hc] at hna h
      have h1 : ¬ (ts - mapGet d.stateEnteredAt "l2" < opts.recoverDuration) := by
        omega
      simp [DegradeFsm.Transition, DegradeFsm.handleRecovery,
        DegradeFsm.eventCall, degradeEventDst, degradePrev,
        ge_iff_le, gt_iff_lt, hc, h1, hna]
    · rw [hc] at hna h
      have h1 : ¬ (ts - mapGet d.stateEnteredAt "l3" < opts.recoverDuration) := by
        omega
      simp [DegradeFsm.Transition, DegradeFsm.handleRecovery,
        DegradeFsm.eventCall, degradeEventDst, degradePrev,
        ge_iff_le, gt_iff_lt, hc, h1, hna]
  · intro hact hc
    subst hact
    by_cases hrd : opts.resendDelay = 0
    · have hres : d.Transition true ts now opts = (d, false, none) := by
        simp [DegradeFsm.Transition, DegradeFsm.handleDegradation,
          DegradeFsm.checkResend, hc, hrd]
      constructor
      · rw [hres]
        simp
        omega
      · intro hpos _
        omega
    · by_cases hle : opts.resendDelay ≤ ts - d.lastSentAt
      · have hres : d.Transition true ts now opts =
            ({ d with lastSentAt := ts }, true, none) := by
          simp [DegradeFsm.Transition, DegradeFsm.handleDegradation,
            DegradeFsm.checkResend, ge_iff_le, hc, hrd, hle]
        constructor
        · rw [hres]
          simp
          omega
        · intro _ _
          exact hres
      · have hres : d.Transition true ts now opts = (d, false, none) := by
          simp [DegradeFsm.Transition, DegradeFsm.handleDegradation,
            DegradeFsm.checkResend, ge_iff_le, hc, hrd, hle]
        constructor
        · rw [hres]
          simp
          omega
        · intro _ hle2
          exact absurd hle2 hle

/-- Witness for C2: an `l1` machine past its hold climbs to `l2`. -/
theorem c2_degrade_transition_contract_witness :
    opts5.Nonneg ∧
    DegradeFsm.Transition c2WitFsm true 7 7 opts5 =
      ({ current := "l2", stateEnteredAt := [("l0", 0), ("l1", 0), ("l2", 7)],
         lastSentAt := 7 }, true, none) :=
  ⟨by decide, by
    have h := (c2_degrade_transition_contract c2WitFsm true 7 7 opts5
      (by decide)).2.1 rfl (by decide) (by decide)
    simpa [c2WitFsm, degradeNext, mapSet] using h⟩

/-- C3 counterexample: in `Rule.Eval`'s deactivation pass a Degrade alert
at `l2` (with zero recover duration) recovers a single level, notifies,
and is deleted from the active map while its state is `l1` — neither
`Inactive` nor `l0`.  This refutes the claim that a fingerprint is
removed only when the FSM has reached its fully-inactive terminal
state. -/
theorem c3_removed_alert_cex :
    Rule.Eval c3Rule 10 10 (fun _ _ => .ok []) =
      ({ c3Rule with active := [] }, .ok [c3AlertAfter]) ∧
    c3AlertAfter.StateOf = "l1" ∧
    ("l1" : String) ≠ "inactive" ∧ ("l1" : String) ≠ "l0" := by decide

/-- C3 (amended): in the deactivation pass an unseen fingerprint is
deleted from the active map exactly when its `Transition(false, ts)`
notifies; for the Basic variant a notifying deactivation implies the
alert ends in `inactive`, but for the Degrade variant any notifying
recovery step removes the alert even when it has not reached `l0`. -/
theorem c3_removed_alert_amended (ts now : Int) (fps : List Fingerprint)
    (todo act : List (Fingerprint × Alert)) (firing : List Alert)
    (fp : Fingerprint) (a : Alert)
    (hmem : (fp, a) ∈ todo) (hnd : NoDupKeys todo)
    (hfps : fps.contains fp = false) :
    (activeGet (deactivationGo (fun x => x.Transition false ts now) none fps
        todo act firing).1 fp = none ↔ (a.Transition false ts now).2.1 = true) ∧
    (∀ m : PromAlertFsm, a.fsm = .basic m →
      (a.Transition false ts now).2.1 = true →
      (a.Transition false ts now).1.StateOf = "inactive") := by
  constructor
  · rw [deactivationGo_get_mem _ _ _ _ _ _ _ hmem hnd hfps]
    by_cases hn : (a.Transition false ts now).2.1 <;> simp [hn]
  · intro m hfsm hn
    simp only [Alert.Transition, Fsm.Transition, hfsm, Alert.StateOf,
      Fsm.StateOf] at hn ⊢
    exact prom_false_notify_inactive m ts now a.opt hn

/-- Witness for the amended C3: a Degrade alert at `l1`, unseen this
cycle, is removed exactly because its recovery transition notifies. -/
theorem c3_removed_alert_amended_witness :
    ((([("k", "v")] : Fingerprint), c3WitAlert) ∈
        [(([("k", "v")] : Fingerprint), c3WitAlert)] ∧
      NoDupKeys [(([("k", "v")] : Fingerprint), c3WitAlert)] ∧
      ([] : List Fingerprint).contains [("k", "v")] = false) ∧
    (activeGet (deactivationGo (fun x => x.Transition false 3 3) none []
        [([("k", "v")], c3WitAlert)] [([("k", "v")], c3WitAlert)] []).1
        [("k", "v")] = none ↔
      (c3WitAlert.Transition false 3 3).2.1 = true) :=
  ⟨⟨by simp, by simp [NoDupKeys], rfl⟩,
    (c3_removed_alert_amended 3 3 [] [([("k", "v")], c3WitAlert)]
      [([("k", "v")], c3WitAlert)] [] [("k", "v")] c3WitAlert
      (by simp) (by simp [NoDupKeys]) rfl).1⟩

/-- C4: for every well-typed alert (both variants), `Marshal` followed by
`Restore` with any live options yields an alert with identical `State()`
and `GetValue()`, and a subsequent `Marshal` produces an identical
persisted record (hence byte-identical JSON). -/
theorem c4_marshal_restore_roundtrip (a : Alert) (opt : AlertOpts) (now : Int)
    (hwt : a.WellTyped) :
    ∃ a2 : Alert, Alert.Restore a.Marshal opt now = .ok a2 ∧
      a2.StateOf = a.StateOf ∧ a2.value = a.value ∧ a2.Marshal = a.Marshal := by
  cases hf : a.fsm with
  | basic m =>
    have ht : a.typ = "basic" := by
      simp only [Alert.WellTyped, hf] at hwt; exact hwt
    refine ⟨{ lbls := a.lbls, value := a.value, typ := a.typ, opt := opt,
              fsm := .basic (PromAlertFsm.RestoreSnap m.Snapshot) }, ?_, ?_, rfl, ?_⟩
    · simp [Alert.Restore, Alert.Marshal, NewFsm, ht, hf, Fsm.Snapshot,
        Fsm.RestoreSnap]
    · simp [Alert.StateOf, Fsm.StateOf, hf, PromAlertFsm.RestoreSnap,
        PromAlertFsm.Snapshot]
    · simp [Alert.Marshal, Fsm.Snapshot, hf, PromAlertFsm.RestoreSnap,
        PromAlertFsm.Snapshot]
  | degrade m =>
    have ht : a.typ = "multi-tier" := by
      simp only [Alert.WellTyped, hf] at hwt; exact hwt
    refine ⟨{ lbls := a.lbls, value := a.value, typ := a.typ, opt := opt,
              fsm := .degrade (DegradeFsm.RestoreSnap m.Snapshot) }, ?_, ?_, rfl, ?_⟩
    · simp [Alert.Restore, Alert.Marshal, NewFsm, ht, hf, Fsm.Snapshot,
        Fsm.RestoreSnap]
    · simp [Alert.StateOf, Fsm.StateOf, hf, DegradeFsm.RestoreSnap,
        DegradeFsm.Snapshot]
    · simp [Alert.Marshal, Fsm.Snapshot, hf, DegradeFsm.RestoreSnap,
        DegradeFsm.Snapshot]

/-- Witness for C4: the round trip on a concrete pending Basic alert. -/
theorem c4_marshal_restore_roundtrip_witness :
    c4Alert.WellTyped ∧
    (∃ a2 : Alert, Alert.Restore c4Alert.Marshal zeroOpts 7 = .ok a2 ∧
      a2.StateOf = c4Alert.StateOf ∧ a2.value = c4Alert.value ∧
      a2.Marshal = c4Alert.Marshal) :=
  ⟨by decide, c4_marshal_restore_roundtrip c4Alert zeroOpts 7 (by decide)⟩

/-- C5 counterexample: a Basic alert fires at time 5, resolves at time 9
with notify — its state is the fully-inactive terminal state — yet the
notification built for it carries a zero end timestamp, because
`firedAt` was reset on leaving Firing and `NewNotification` requires a
non-zero `firedAt`.  This refutes the claim that the end timestamp is
present exactly when the state is fully inactive. -/
theorem c5_end_timestamp_cex :
    NewAlert "basic" [("alertname", "r")] zeroOpts 5 = .ok c5Alert0 ∧
    c5Alert0.Transition true 5 5 = (c5Alert1, true, none) ∧
    c5Alert1.Transition false 9 9 = (c5Alert2, true, none) ∧
    c5Alert2.StateOf = "inactive" ∧
    NewNotification exRule c5Alert2 10 =
      { rule := "r"
        status := "inactive"
        lbls := [("alertname", "r")]
        value := 0
        startsAt := 0
        endsAt := 0 } := by decide

/-- C5 (amended): the notification carries the rule name, the snapshot
state as a string, the alert's labels, its measured value, and
`StartsAt` equal to the snapshot's `firedAt`; the end timestamp is
stamped with the wall clock exactly when the snapshot state is the Basic
`inactive` tag and the snapshot's `firedAt` is non-zero — never for the
Degrade `l0` state, and not for alerts whose `firedAt` was reset. -/
theorem c5_notification_fields (r : Rule) (a : Alert) (now : Int) :
    (NewNotification r a now).rule = r.name ∧
    (NewNotification r a now).status = a.fsm.Snapshot.state ∧
    (NewNotification r a now).lbls = a.lbls ∧
    (NewNotification r a now).value = a.value ∧
    (NewNotification r a now).startsAt = a.fsm.Snapshot.firedAt ∧
    (NewNotification r a now).endsAt =
      (if a.fsm.Snapshot.state = "inactive" ∧ a.fsm.Snapshot.firedAt ≠ 0
        then now else 0) := by
  by_cases hc : a.fsm.Snapshot.state = "inactive" ∧ a.fsm.Snapshot.firedAt ≠ 0
  · simp [NewNotification, hc]
  · simp [NewNotification, hc]

/-- C6: when the query collaborator fails, `Rule.Eval` returns that very
error and leaves the rule — its active map included — untouched: no
alert is created, mutated or removed. -/
theorem c6_query_error_aborts (r : Rule) (ts now : Int) (query : QueryFunc)
    (e : String) (h : query r.expr ts = .error e) :
    r.Eval ts now query = (r, .error e) := by
  unfold Rule.Eval
  rw [h]

/-- Witness for C6: a failing query on a concrete rule. -/
theorem c6_query_error_aborts_witness :
    ((fun _ _ => .error "boom" : QueryFunc) exRule.expr 0 = .error "boom") ∧
    Rule.Eval exRule 0 0 (fun _ _ => .error "boom") = (exRule, .error "boom") :=
  ⟨rfl, c6_query_error_aborts exRule 0 0 (fun _ _ => .error "boom") "boom" rfl⟩

/-- C7 counterexample: `NewRule` accepts a rule without validating any
alert type (it does not even take one — `AlertType` keeps the zero value
`""`), and evaluating that successfully constructed rule fails with an
unsupported-alert-type error when a sample must create an alert.  This
refutes the claim that an invalid alert type is rejected at rule
construction rather than during `Rule.Eval`. -/
theorem c7_alert_type_eval_error_cex :
    NewRule "n" "e" 0 0 0 [] [] = .ok c7Rule ∧
    (Rule.Eval c7Rule 0 0
        (fun _ _ => .ok [{ metric := [("a", "b")], f := 1 }])).2 =
      .error "unsupported alert type: " := by decide

/-- C7 (amended): `NewRule` fails fast on an empty name or expression and
on negative durations, but performs no alert-type validation: every
successfully constructed rule carries the zero-value type `""`, which
`NewFsm` rejects — so the unsupported-alert-type error surfaces at
evaluation time, not at construction. -/
theorem c7_construction_validation (name expr : String)
    (hold keepFiring resendDelay : Int) (lbs ann : Labels) :
    ((name = "" ∨ expr = "") →
      NewRule name expr hold keepFiring resendDelay lbs ann =
        .error "empty name or expr") ∧
    (¬ (name = "" ∨ expr = "") →
      (hold < 0 ∨ keepFiring < 0 ∨ resendDelay < 0) →
      NewRule name expr hold keepFiring resendDelay lbs ann =
        .error "durations cannot be negative") ∧
    (¬ (name = "" ∨ expr = "") →
      ¬ (hold < 0 ∨ keepFiring < 0 ∨ resendDelay < 0) →
      ∃ r : Rule, NewRule name expr hold keepFiring resendDelay lbs ann = .ok r ∧
        r.alertType = "" ∧
        NewFsm r.alertType 0 = .error "unsupported alert type: ") := by
  refine ⟨?_, ?_, ?_⟩
  · intro h
    unfold NewRule
    rw [if_pos h]
  · intro h1 h2
    unfold NewRule
    rw [if_neg h1, if_pos h2]
  · intro h1 h2
    refine ⟨{ name := name, expr := expr, alertType := "",
              alertOpts := { holdDuration := hold, keepFiringFor := keepFiring,
                             resendDelay := resendDelay, recoverDuration := 0,
                             autoRecoverAfter := 0 },
              lbls := lbs, anns := ann, active := [] }, ?_, rfl, by simp [NewFsm]⟩
    unfold NewRule
    rw [if_neg h1, if_neg h2]

/-- Witness for the amended C7: valid inputs construct a rule whose
alert type is the rejected zero value. -/
theorem c7_construction_validation_witness :
    (¬ (("n" : String) = "" ∨ ("e" : String) = "")) ∧
    (¬ ((0 : Int) < 0 ∨ (0 : Int) < 0 ∨ (0 : Int) < 0)) ∧
    (∃ r : Rule, NewRule "n" "e" 0 0 0 [] [] = .ok r ∧ r.alertType = "" ∧
      NewFsm r.alertType 0 = .error "unsupported alert type: ") :=
  ⟨by decide, by decide,
    (c7_construction_validation "n" "e" 0 0 0 [] []).2.2 (by decide) (by decide)⟩

/-- C8: the Basic hold scenario with a one-minute hold: triggering at
`t0` enters Pending with `activeAt` stamped `t0` and no notify; at
`t0+30s` the machine stays Pending with no notify; at `t0+61s` — 61
seconds after the Pending-entry stamp — it fires and notifies. -/
theorem c8_basic_hold_scenario (t0 : Int) :
    NewPromAlertFsm.Transition true t0 t0 opts60 =
      ({ current := "pending", activeAt := t0, firedAt := 0, lastSentAt := 0 },
        false, none) ∧
    PromAlertFsm.Transition
        { current := "pending", activeAt := t0, firedAt := 0, lastSentAt := 0 }
        true (t0 + 30) (t0 + 30) opts60 =
      ({ current := "pending", activeAt := t0, firedAt := 0, lastSentAt := 0 },
        false, none) ∧
    PromAlertFsm.Transition
        { current := "pending", activeAt := t0, firedAt := 0, lastSentAt := 0 }
        true (t0 + 61) (t0 + 61) opts60 =
      ({ current := "firing", activeAt := t0, firedAt := t0 + 61,
         lastSentAt := t0 + 61 }, true, none) := by
  refine ⟨?_, ?_, ?_⟩
  · simp [PromAlertFsm.Transition, PromAlertFsm.eventCall, promEventDst,
      opts60, NewPromAlertFsm]
  · have h1 : t0 + 30 - t0 < 60 := by omega
    simp [PromAlertFsm.Transition, PromAlertFsm.eventCall, promEventDst,
      opts60, h1]
  · have h1 : ¬ (t0 + 61 - t0 < 60) := by omega
    simp [PromAlertFsm.Transition, PromAlertFsm.eventCall, promEventDst,
      opts60, h1]

/-- C9: in the deactivation pass of `Rule.Eval` the error returned by
`Transition(false, ts)` never influences control flow — the pass is
invariant under arbitrary changes of the error component, because the
source binds it to the blank identifier and then tests a stale outer
error variable (nil whenever the pass runs) — and an unseen alert is
removed from the active map if and only if its transition reports
`shouldNotify`. -/
theorem c9_deactivation_error_discarded (ts now : Int)
    (fps : List Fingerprint) (todo act : List (Fingerprint × Alert))
    (firing : List Alert) :
    (∀ tf tf2 : Alert → Alert × Bool × Option String,
      (∀ x, (tf2 x).1 = (tf x).1 ∧ (tf2 x).2.1 = (tf x).2.1) →
      ∀ se, deactivationGo tf2 se fps todo act firing =
        deactivationGo tf se fps todo act firing) ∧
    (∀ fp a, (fp, a) ∈ todo → NoDupKeys todo → fps.contains fp = false →
      (activeGet (deactivationGo (fun x => x.Transition false ts now) none fps
          todo act firing).1 fp = none ↔
        (a.Transition false ts now).2.1 = true)) := by
  constructor
  · intro tf tf2 h se
    exact deactivationGo_congr tf tf2 h se fps todo act firing
  · intro fp a hmem hnd hfps
    rw [deactivationGo_get_mem _ _ _ _ _ _ _ hmem hnd hfps]
    by_cases hn : (a.Transition false ts now).2.1 <;> simp [hn]

/-- Witness for C9: a firing Basic alert, unseen this cycle, is removed
precisely because its resolve transition notifies; forcing a different
error component onto every transition leaves the pass's result
untouched. -/
theorem c9_deactivation_error_discarded_witness :
    ((([("q", "w")] : Fingerprint), c9Alert) ∈
        [(([("q", "w")] : Fingerprint), c9Alert)] ∧
      NoDupKeys [(([("q", "w")] : Fingerprint), c9Alert)]) ∧
    (activeGet (deactivationGo (fun x => x.Transition false 4 4) none []
        [([("q", "w")], c9Alert)] [([("q", "w")], c9Alert)] []).1
        [("q", "w")] = none ↔
      (c9Alert.Transition false 4 4).2.1 = true) ∧
    deactivationGo
        (fun x => ((x.Transition false 4 4).1, (x.Transition false 4 4).2.1,
          some "forced error")) none []
        [([("q", "w")], c9Alert)] [([("q", "w")], c9Alert)] [] =
      deactivationGo (fun x => x.Transition false 4 4) none []
        [([("q", "w")], c9Alert)] [([("q", "w")], c9Alert)] [] :=
  ⟨⟨by simp, by simp [NoDupKeys]⟩,
    (c9_deactivation_error_discarded 4 4 [] [([("q", "w")], c9Alert)]
      [([("q", "w")], c9Alert)] []).2 [("q", "w")] c9Alert
      (by simp) (by simp [NoDupKeys]) rfl,
    (c9_deactivation_error_discarded 4 4 [] [([("q", "w")], c9Alert)]
      [([("q", "w")], c9Alert)] []).1 (fun x => x.Transition false 4 4)
      (fun x => ((x.Transition false 4 4).1, (x.Transition false 4 4).2.1,
        some "forced error"))
      (fun _ => ⟨rfl, rfl⟩) none⟩

/-- C10: `MemoryStorage` has no constructor initializing its map, so on
the zero value (`alerts` nil) `SaveAlerts` assigns into a nil map — a
runtime panic — while `LoadAlerts` reads the nil map and returns an
empty result with no error. -/
theorem c10_memory_storage_zero_value :
    MemoryStorage.SaveAlerts { alerts := none } exRule [] =
      .error GoPanic.nilMapAssign ∧
    MemoryStorage.LoadAlerts { alerts := none } exRule 0 = .ok [] :=
  ⟨rfl, rfl⟩

end AlertVerify
